import Mathlib

set_option maxRecDepth 16384

/-!
Verification of the retrieval-and-decision pipeline and session navigation
of the QA-mentor bot, as a shallow embedding of `qa_bot.py`, `ai_helper.py`
and `config.py`.  Text is modelled as `List Char`; the character classes of
Python's `str.lower` and the regex classes `\w`/`\s` are modelled on the
alphabets actually used by the repository (ASCII plus the Cyrillic block).
Scores are modelled as `Nat`: every increment in the source is a small
integer float (20.0, 15.0, ...), exactly representable, so float and
natural-number comparison agree on every value the program can produce.
-/

/-- Python's substring test `a in b` on strings: `a` occurs contiguously
in `b` (the empty string occurs in every string). -/
def isSubstring (a : List Char) : List Char → Bool
  | [] => a.isEmpty
  | c :: rest => a.isPrefixOf (c :: rest) || isSubstring a rest

/-- Python `str.lower` restricted to the alphabets the repository uses:
ASCII `A`-`Z` via `Char.toLower`, Cyrillic `А`-`Я` (U+0410..U+042F) shifted
down by 0x20, and `Ё` (U+0401) mapped to `ё` (U+0451); all else fixed. -/
def lowerChar (c : Char) : Char :=
  if c.isUpper then c.toLower
  else if 0x410 ≤ c.toNat ∧ c.toNat ≤ 0x42F then Char.ofNat (c.toNat + 0x20)
  else if c.toNat = 0x401 then Char.ofNat 0x451
  else c

/-- Python regex `\w` (word character: letter, digit or underscore),
restricted to ASCII plus the Cyrillic block U+0400..U+04FF. -/
def isWordChar (c : Char) : Bool :=
  c.isAlphanum || c == '_' || (0x400 ≤ c.toNat && c.toNat ≤ 0x4FF)

/-- Python regex `\s` (whitespace). -/
def isWs (c : Char) : Bool :=
  c.isWhitespace

/-- Collapses runs of adjacent spaces to a single space.  Together with
first mapping every whitespace character to `' '`, this is
`re.sub(r'\s+', ' ', text)`: each maximal whitespace run becomes one space. -/
def squeezeSpaces : List Char → List Char
  | [] => []
  | [c] => [c]
  | c :: d :: rest =>
    if c == ' ' && d == ' ' then squeezeSpaces (d :: rest)
    else c :: squeezeSpaces (d :: rest)

/-- Removes trailing whitespace (Python `str.rstrip()`). -/
def trimRight : List Char → List Char
  | [] => []
  | c :: rest =>
    if (trimRight rest).isEmpty && isWs c then [] else c :: trimRight rest

/-- Python `str.strip()`: drop leading and trailing whitespace. -/
def trimWs (l : List Char) : List Char :=
  trimRight (l.dropWhile isWs)

/-- The per-character action of `re.sub(r'[^\w\s]', ' ', text)`: every
character outside `\w` and `\s` becomes a space. -/
def punctToSpace (c : Char) : Char :=
  if isWordChar c || isWs c then c else ' '

/-- Maps each whitespace character to a plain space; composed with
`squeezeSpaces` this is `re.sub(r'\s+', ' ', text)`. -/
def wsToSpace (c : Char) : Char :=
  if isWs c then ' ' else c

/-- `normalize_text` from `qa_bot.py` (lines 26-33): lowercase, replace
every character outside `\w` and `\s` by a space
(`re.sub(r'[^\w\s]', ' ', text)`), collapse whitespace runs to one space
(`re.sub(r'\s+', ' ', text)`), and strip. -/
def normalize_text (text : List Char) : List Char :=
  trimWs (squeezeSpaces (((text.map lowerChar).map punctToSpace).map wsToSpace))

/-- Accumulator for `splitWords`. -/
def splitWordsAux : List Char → List Char → List (List Char)
  | [], acc => if acc.isEmpty then [] else [acc.reverse]
  | c :: rest, acc =>
    if isWs c then
      if acc.isEmpty then splitWordsAux rest []
      else acc.reverse :: splitWordsAux rest []
    else splitWordsAux rest (c :: acc)

/-- Python `str.split()` with no argument: split on whitespace runs,
producing no empty words. -/
def splitWords (l : List Char) : List (List Char) :=
  splitWordsAux l []

/-- One Q&A entry of the knowledge base (`question_data` dictionaries). -/
structure Entry where
  question : List Char
  answer : List Char
  keywords : List (List Char)
deriving DecidableEq

instance : Inhabited Entry := ⟨⟨[], [], []⟩⟩

/-- A topic: display name and ordered content
(`TOPICS[key]["name"]`, `TOPICS[key]["content"]`).  A knowledge base is a
`List Topic` in `TOPIC_ORDER` order (the data itself lives in
`knowledge_base.py`; the claims quantify over it). -/
structure Topic where
  name : List Char
  content : List Entry
deriving DecidableEq

instance : Inhabited Topic := ⟨⟨[], []⟩⟩

/-- `expand_with_synonyms` from `qa_bot.py` (lines 35-41).  `syn w` models
`SYNONYMS[w]` (and `[]` when `w not in SYNONYMS`).  The source builds a
Python set; we canonicalise the set as a deduplicated list — every
fold over it below is a sum of naturals, which is iteration-order
independent, so this is faithful. -/
def expand_with_synonyms (syn : List Char → List (List Char))
    (words : List (List Char)) : List (List Char) :=
  (words ++ words.flatMap syn).dedup

/-- `' '.join(query_words)`. -/
def query_phrase (queryWords : List (List Char)) : List Char :=
  List.intercalate [' '] queryWords

/-- `' '.join(query_words[:2]) if len(query_words) >= 2 else ""`. -/
def query_phrase_2 (queryWords : List (List Char)) : List Char :=
  if queryWords.length ≥ 2 then List.intercalate [' '] (queryWords.take 2) else []

/-- `' '.join(query_words[:3]) if len(query_words) >= 3 else ""`. -/
def query_phrase_3 (queryWords : List (List Char)) : List Char :=
  if queryWords.length ≥ 3 then List.intercalate [' '] (queryWords.take 3) else []

/-- The `if/elif/elif` phrase-bonus chain of `calculate_relevance_score`
(`qa_bot.py` lines 58-72).  The source contains two copies of this chain:
against the question text with bonuses (20, 15, 12) and against the answer
text with bonuses (10, 7, 5); `hi`, `mid`, `lo` are those constants.
Python truthiness of `query_phrase_3`/`query_phrase_2` is the `isEmpty`
test. -/
def phrase_bonus (queryWords : List (List Char)) (text : List Char)
    (hi mid lo : Nat) : Nat :=
  if isSubstring (query_phrase queryWords) text then hi
  else if !(query_phrase_3 queryWords).isEmpty
      && isSubstring (query_phrase_3 queryWords) text then mid
  else if !(query_phrase_2 queryWords).isEmpty
      && isSubstring (query_phrase_2 queryWords) text then lo
  else 0

/-- The per-token loop of `calculate_relevance_score` (`qa_bot.py` lines
74-90): for every word of the synonym-expanded query, +5 if it occurs in
the question text, +8 if it equals a normalized keyword, +2 if it occurs
in the answer text, +3 if it occurs in the topic name (all substring
tests, as Python `in` on strings; keyword membership is list membership). -/
def token_match_score (syn : List Char → List (List Char))
    (queryWords : List (List Char)) (qd : Entry) (topicName : List Char) : Nat :=
  let questionText := normalize_text qd.question
  let answerText := normalize_text qd.answer
  let topicText := normalize_text topicName
  let normKws := qd.keywords.map normalize_text
  ((expand_with_synonyms syn queryWords).map (fun word =>
      (if isSubstring word questionText then 5 else 0)
      + (if normKws.contains word then 8 else 0)
      + (if isSubstring word answerText then 2 else 0)
      + (if isSubstring word topicText then 3 else 0))).sum

/-- The completeness bonus of `calculate_relevance_score` (`qa_bot.py`
lines 92-95): +10 when every original query word occurs in the question
text and the query is non-empty. -/
def completeness_bonus (queryWords : List (List Char))
    (questionText : List Char) : Nat :=
  let wordsInQuestion :=
    (queryWords.filter (fun w => isSubstring w questionText)).length
  if wordsInQuestion = queryWords.length ∧ 0 < queryWords.length then 10 else 0

/-- `calculate_relevance_score` from `qa_bot.py` (lines 43-97): the sum of
the question-phrase bonus, the answer-phrase bonus, the per-token bonuses
and the completeness bonus (the source accumulates them into `score` in
this order). -/
def calculate_relevance_score (syn : List Char → List (List Char))
    (queryWords : List (List Char)) (qd : Entry) (topicName : List Char) : Nat :=
  phrase_bonus queryWords (normalize_text qd.question) 20 15 12
  + phrase_bonus queryWords (normalize_text qd.answer) 10 7 5
  + token_match_score syn queryWords qd topicName
  + completeness_bonus queryWords (normalize_text qd.question)

/-- `SEARCH_CONFIG['min_relevance_score']` (`config.py` line 23). -/
def min_relevance_score : Nat := 5

/-- `SEARCH_CONFIG['high_relevance_score']` (`config.py` line 24). -/
def high_relevance_score : Nat := 8

/-- `SEARCH_CONFIG['max_results']` (`config.py` line 25). -/
def max_results : Nat := 3

/-- One element of the list built by `search_in_knowledge_base`
(`qa_bot.py` lines 124-131). -/
structure SearchResult where
  score : Nat
  topicName : List Char
  question : List Char
  answer : List Char
  keywords : List (List Char)
deriving DecidableEq

instance : Inhabited SearchResult := ⟨⟨0, [], [], [], []⟩⟩

/-- Stable insertion for descending sort: a later element is placed after
every earlier element of equal score, matching Python's stable
`list.sort(key=..., reverse=True)`. -/
def insertDesc (r : SearchResult) : List SearchResult → List SearchResult
  | [] => [r]
  | x :: xs => if r.score > x.score then r :: x :: xs else x :: insertDesc r xs

/-- `results.sort(key=lambda x: x['score'], reverse=True)` (`qa_bot.py`
line 134): stable descending sort by score. -/
def sortByScoreDesc : List SearchResult → List SearchResult
  | [] => []
  | r :: rs => insertDesc r (sortByScoreDesc rs)

/-- `search_in_knowledge_base` from `qa_bot.py` (lines 99-137): reject
queries that are empty or shorter than 2 characters after stripping,
normalize and split, score every entry of every topic, keep scores
`≥ min_relevance_score`, sort descending (stable) and take the top
`max_results`.  (The source also recomputes the synonym expansion at line
112; its value is unused there, the scorer re-expands internally.) -/
def search_in_knowledge_base (syn : List Char → List (List Char))
    (kb : List Topic) (query : List Char) : List SearchResult :=
  if query.isEmpty || (trimWs query).length < 2 then []
  else
    let queryWords := splitWords (normalize_text query)
    if queryWords.isEmpty then []
    else
      let results := kb.flatMap (fun topic =>
        topic.content.filterMap (fun qd =>
          let score := calculate_relevance_score syn queryWords qd topic.name
          if score ≥ min_relevance_score then
            some ⟨score, topic.name, qd.question, qd.answer, qd.keywords⟩
          else none))
      (sortByScoreDesc results).take max_results

/-- The environment of Oracle-related configuration and network outcomes
for one pipeline invocation: `config.AI_CONFIG['enabled']`, whether the
OpenAI client was initialised, `AI_CONFIG['use_fallback']`,
`SEARCH_CONFIG['use_ai_relevance_check']`, and the outcome of the one
relevance-verification API call (`none` = exception) and of the one
generative API call (`none` = exception; the stored answer is
post-`strip()`). -/
structure OracleEnv where
  aiEnabled : Bool
  clientOk : Bool
  useFallback : Bool
  useAiRelevanceCheck : Bool
  relevanceReply : Option Bool
  answerReply : Option (List Char)
deriving DecidableEq

/-- The decision a pipeline invocation terminates in: show a curated
result from the knowledge base, show a generative AI answer, or report
"not found". -/
inductive Decision where
  | showCurated (r : SearchResult)
  | showAI (answer : List Char)
  | notFound
deriving DecidableEq

/-- Outcome of one pipeline invocation: the decision together with the
number of relevance-verification API calls and generative API calls made. -/
structure PipeResult where
  decision : Decision
  relCalls : Nat
  fbCalls : Nat
deriving DecidableEq

/-- `check_relevance` from `ai_helper.py` (lines 175-224), with the number
of API calls it makes: `none` without a call when AI is disabled or the
client missing; `some true` without a call when
`use_ai_relevance_check` is off; otherwise one API call whose outcome is
`o.relevanceReply` (`none` models the exception path returning `None`). -/
def check_relevance (o : OracleEnv) : Option Bool × Nat :=
  if !(o.aiEnabled && o.clientOk) then (none, 0)
  else if !o.useAiRelevanceCheck then (some true, 0)
  else (o.relevanceReply, 1)

/-- `ask_ai` from `ai_helper.py` (lines 51-173), with the number of API
calls it makes: `none` without a call when AI is disabled or the client
missing, otherwise one API call with outcome `o.answerReply`. -/
def ask_ai (o : OracleEnv) : Option (List Char) × Nat :=
  if !(o.aiEnabled && o.clientOk) then (none, 0)
  else (o.answerReply, 1)

/-- `send_ai_response` from `qa_bot.py` (lines 187-210): `none` without
calling `ask_ai` when AI is disabled or the fallback is off; otherwise the
`ask_ai` outcome, where a `None` or empty (falsy) answer means no message
was sent.  `some a` = an AI message with text `a` was sent (`True`). -/
def send_ai_response (o : OracleEnv) : Option (List Char) × Nat :=
  if !(o.aiEnabled && o.useFallback) then (none, 0)
  else
    match ask_ai o with
    | (some a, c) => if a.isEmpty then (none, c) else (some a, c)
    | (none, c) => (none, c)

/-- `process_search_results` from `qa_bot.py` (lines 248-303): the tiered
decision.  Empty results → generative fallback, else `NotFound`.  Top
score `≥ high_relevance_score` → show curated at once.  Else (the kept top
is always `≥ min_relevance_score`) verify via `check_relevance`; a `None`
or `False` verdict falls back to the generative answer and, failing that,
shows the curated top anyway; `True` shows the curated top.  The final
branch (score below minimum) is unreachable for results produced by
`search_in_knowledge_base` but is translated faithfully. -/
def process_search_results (o : OracleEnv) (results : List SearchResult) :
    PipeResult :=
  match results with
  | [] =>
    match send_ai_response o with
    | (some a, c) => ⟨Decision.showAI a, 0, c⟩
    | (none, c) => ⟨Decision.notFound, 0, c⟩
  | result :: _ =>
    if result.score ≥ high_relevance_score then
      ⟨Decision.showCurated result, 0, 0⟩
    else if result.score ≥ min_relevance_score then
      match check_relevance o with
      | (rel, c1) =>
        if rel = some true then ⟨Decision.showCurated result, c1, 0⟩
        else
          match send_ai_response o with
          | (some a, c2) => ⟨Decision.showAI a, c1, c2⟩
          | (none, c2) => ⟨Decision.showCurated result, c1, c2⟩
    else
      match send_ai_response o with
      | (some a, c) => ⟨Decision.showAI a, 0, c⟩
      | (none, c) => ⟨Decision.notFound, 0, c⟩

/-- One full pipeline invocation (`handle_search` / `handle_text` tail of
`qa_bot.py`): `search_in_knowledge_base` followed by
`process_search_results`. -/
def retrieve (o : OracleEnv) (syn : List Char → List (List Char))
    (kb : List Topic) (query : List Char) : PipeResult :=
  process_search_results o (search_in_knowledge_base syn kb query)

/-- A per-user session cursor (`user_sessions` in `qa_bot.py`): the
current topic as its index in `TOPIC_ORDER` and the current question
index. -/
structure Session where
  currentTopic : Nat
  currentQuestionIndex : Nat
deriving DecidableEq

/-- `go_back` from `qa_bot.py` (lines 511-523), the `Назад` button: move
to the previous topic at question index 0; at the first topic, leave the
state unchanged and signal "already at start" (the `Bool`). -/
def go_back (s : Session) : Session × Bool :=
  if 0 < s.currentTopic then
    (⟨s.currentTopic - 1, 0⟩, false)
  else (s, true)

/-- The back-words branch of `handle_text` in `qa_bot.py` (lines 617-638):
with a question index above 0, decrement it; at question index 0 of a
non-first topic, move to the previous topic at its LAST question index;
at the first topic, leave the state unchanged and signal "already at
start" (the `Bool`). -/
def handle_text_back (kb : List Topic) (s : Session) : Session × Bool :=
  if 0 < s.currentQuestionIndex then
    (⟨s.currentTopic, s.currentQuestionIndex - 1⟩, false)
  else if 0 < s.currentTopic then
    (⟨s.currentTopic - 1, ((kb.getD (s.currentTopic - 1) default).content).length - 1⟩, false)
  else (s, true)

/-- `ALLOWED_MODELS` from `ai_helper.py` (lines 12-22). -/
def allowed_models : List (List Char) :=
  ["gpt-3.5-turbo".toList, "gpt-4".toList, "gpt-4-turbo".toList,
   "gpt-4-turbo-preview".toList, "gpt-4o".toList, "gpt-4o-2024-05-13".toList,
   "gpt-4o-2024-08-06".toList, "gpt-4o-mini".toList,
   "gpt-4o-mini-2024-07-18".toList]

/-- `lowerChar` lifted to strings (Python `str.lower()`). -/
def lowerStr (l : List Char) : List Char :=
  l.map lowerChar

/-- `validate_model` from `ai_helper.py` (lines 33-49): empty (falsy)
input → `'gpt-3.5-turbo'`; otherwise strip, lowercase, and return the
first allowed model with the same lowercase form, or `'gpt-3.5-turbo'`
when none matches. -/
def validate_model (modelName : List Char) : List Char :=
  if modelName.isEmpty then "gpt-3.5-turbo".toList
  else
    let ml := lowerStr (trimWs modelName)
    match allowed_models.find? (fun am => lowerStr am == ml) with
    | some am => am
    | none => "gpt-3.5-turbo".toList

/-- The truncation suffix of `format_response_from_db` (`qa_bot.py` line
183). -/
def truncationSuffix : List Char :=
  "\n\n... (сообщение обрезано)".toList

/-- The markdown body built by `format_response_from_db` (`qa_bot.py`
lines 178-180): `f"*{topic_name}*\n\n" + f"*{question}*\n\n" + answer`. -/
def format_response_body (r : SearchResult) : List Char :=
  "*".toList ++ r.topicName ++ "*\n\n*".toList ++ r.question
    ++ "*\n\n".toList ++ r.answer

/-- `format_response_from_db` from `qa_bot.py` (lines 176-185): truncate
the body to its first 4000 characters plus a fixed suffix when it exceeds
4000 characters. -/
def format_response_from_db (r : SearchResult) : List Char :=
  let response := format_response_body r
  if response.length > 4000 then response.take 4000 ++ truncationSuffix
  else response

/-- `true` when no two adjacent characters are both spaces. -/
def noAdjSpaces : List Char → Bool
  | [] => true
  | [_] => true
  | c :: d :: rest => !(c == ' ' && d == ' ') && noAdjSpaces (d :: rest)

/-- Modelled from the spec: the normalization step as §4.1 words it —
"replaces every character that is not a letter, digit, or whitespace with
a single space" — i.e. with letters and digits only, underscore excluded
(the source keeps every `\w` character, underscore included).  Used only
to exhibit where the spec's wording and `normalize_text` differ. -/
def normalize_text_spec (text : List Char) : List Char :=
  let lowered := text.map lowerChar
  let isLetterOrDigit := fun c =>
    c.isAlphanum || (0x400 ≤ c.toNat && c.toNat ≤ 0x4FF)
  let depunct := lowered.map (fun c =>
    if isLetterOrDigit c || isWs c then c else ' ')
  trimWs (squeezeSpaces (depunct.map (fun c => if isWs c then ' ' else c)))

/-! ## Concrete inputs used by witnesses and counterexamples -/

/-- A minimal knowledge-base entry for concrete navigation scenarios. -/
def demoEntry : Entry := ⟨"q".toList, "a".toList, []⟩

/-- A two-topic knowledge base with two entries per topic. -/
def demoKb : List Topic :=
  [⟨"Тема 1".toList, [demoEntry, demoEntry]⟩,
   ⟨"Тема 2".toList, [demoEntry, demoEntry]⟩]

/-- A search result whose formatted body exceeds the 4000-character limit. -/
def longAnswerResult : SearchResult :=
  ⟨35, "Основы".toList, "Вопрос?".toList, List.replicate 4100 'a', []⟩

/-- The empty synonym table (`SYNONYMS` with no applicable key). -/
def noSyn : List Char → List (List Char) := fun _ => []

/-- An Oracle environment with AI disabled (no OpenAI key configured). -/
def oracleOff : OracleEnv := ⟨false, false, true, true, none, none⟩

/-- A fully available Oracle whose relevance verification answers
not-relevant (`"НЕТ"`) and whose generative call succeeds. -/
def oracleFull : OracleEnv := ⟨true, true, true, true, some false, some "ai".toList⟩

/-- A one-topic knowledge base on which the query `"ab cd"` scores exactly
5 (token `"ab"` in the answer: +2; token `"cd"` in the topic name: +3),
i.e. in the ambiguous band `[min_relevance_score, high_relevance_score)`. -/
def midTopic : Topic := ⟨"cd".toList, [⟨"q".toList, "ab".toList, []⟩]⟩

/-- A one-topic knowledge base on which the query
`"что такое тестирование по"` scores 50 (full phrase in the question: +20;
four tokens in the question: +20; completeness: +10), above
`high_relevance_score`. -/
def highTopic : Topic :=
  ⟨"Основы".toList,
   [⟨"Что такое тестирование ПО?".toList, "Это проверка.".toList, []⟩]⟩

/-- The spec's example query, as the scorer receives it: the word list
produced by normalizing and splitting `"что такое тестирование по"`. -/
def exampleQueryWords : List (List Char) :=
  splitWords (normalize_text "что такое тестирование по".toList)

/-- The spec's example entry question `"Что такое тестирование ПО?"`. -/
def exampleQuestion : List Char :=
  "Что такое тестирование ПО?".toList

/-! ## Theorems -/

/-- Every allowed model name is already in lowercase, so Python's
`allowed_model.lower()` is the identity on `ALLOWED_MODELS`. -/
theorem lowerStr_fixed_on_allowed : ∀ m ∈ allowed_models, lowerStr m = m := by
  intro m hm
  simp only [allowed_models, List.mem_cons, List.not_mem_nil, or_false] at hm
  rcases hm with rfl | rfl | rfl | rfl | rfl | rfl | rfl | rfl | rfl <;> rfl

/-- C9: `validate_model` is total and always lands in `ALLOWED_MODELS`: an
input that, after trimming surrounding whitespace, matches an allowed
model case-insensitively is mapped to that model's canonical spelling,
and every other input (in particular the empty string) is mapped to
`'gpt-3.5-turbo'`.  (Totality holds by construction: `validate_model` is
a total Lean function.) -/
theorem claim9_validate_model_total_and_canonical (s : List Char) :
    validate_model s ∈ allowed_models
    ∧ (∀ m ∈ allowed_models,
        lowerStr (trimWs s) = lowerStr m → validate_model s = m)
    ∧ ((∀ m ∈ allowed_models, lowerStr (trimWs s) ≠ lowerStr m) →
        validate_model s = "gpt-3.5-turbo".toList) := by
  have hmem35 : "gpt-3.5-turbo".toList ∈ allowed_models := by
    simp [allowed_models]
  refine ⟨?_, ?_, ?_⟩
  · by_cases hs : s.isEmpty
    · simpa [validate_model, hs] using hmem35
    · simp only [validate_model, hs, Bool.false_eq_true, if_false]
      cases hf : allowed_models.find?
          (fun am => lowerStr am == lowerStr (trimWs s)) with
      | some am =>
        simpa [hf] using List.mem_of_find?_eq_some hf
      | none => simpa [hf] using hmem35
  · intro m hm heq
    have hfix : lowerStr m = m := lowerStr_fixed_on_allowed m hm
    by_cases hs : s.isEmpty
    · exfalso
      have hsnil : s = [] := List.isEmpty_iff.mp hs
      subst hsnil
      have : ([] : List Char) = m := by
        simpa [trimWs, trimRight, lowerStr, hfix] using heq
      subst this
      simp [allowed_models] at hm
    · have heq' : lowerStr (trimWs s) = m := by rw [heq, hfix]
      simp only [validate_model, hs, Bool.false_eq_true, if_false]
      cases hf : allowed_models.find?
          (fun am => lowerStr am == lowerStr (trimWs s)) with
      | some am =>
        have ham : am ∈ allowed_models := List.mem_of_find?_eq_some hf
        have h1 : lowerStr am = lowerStr (trimWs s) := by
          simpa using List.find?_some hf
        have : am = m := by
          rw [lowerStr_fixed_on_allowed am ham] at h1
          rw [h1, heq']
        simp [hf, this]
      | none =>
        exfalso
        apply List.find?_eq_none.mp hf m hm
        simp [heq]
  · intro hnone
    by_cases hs : s.isEmpty
    · have hsnil : s = [] := List.isEmpty_iff.mp hs
      subst hsnil
      rfl
    · simp only [validate_model, hs, Bool.false_eq_true, if_false]
      cases hf : allowed_models.find?
          (fun am => lowerStr am == lowerStr (trimWs s)) with
      | some am =>
        exfalso
        have ham : am ∈ allowed_models := List.mem_of_find?_eq_some hf
        have h1 : lowerStr am = lowerStr (trimWs s) := by
          simpa using List.find?_some hf
        exact hnone am ham h1.symm
      | none => simp [hf]

/-- Witness for C9 at a concrete input: `"  GPT-4O "` trims and matches
`'gpt-4o'` case-insensitively, so it maps to the canonical spelling. -/
theorem claim9_witness :
    validate_model "  GPT-4O ".toList = "gpt-4o".toList :=
  (claim9_validate_model_total_and_canonical "  GPT-4O ".toList).2.1
    "gpt-4o".toList (by decide) (by decide)

/-- C10: `format_response_from_db` truncates exactly when the formatted
body exceeds 4000 characters, returning its first 4000 characters plus
the fixed suffix `"\n\n... (сообщение обрезано)"` (so the output can
exceed 4000 characters but never 4000 plus the suffix length);
otherwise it returns the body unchanged. -/
theorem claim10_format_response_truncates (r : SearchResult) :
    ((format_response_body r).length > 4000 →
      format_response_from_db r
        = (format_response_body r).take 4000 ++ truncationSuffix
      ∧ (format_response_from_db r).length = 4000 + truncationSuffix.length)
    ∧ ((format_response_body r).length ≤ 4000 →
      format_response_from_db r = format_response_body r)
    ∧ (format_response_from_db r).length ≤ 4000 + truncationSuffix.length := by
  refine ⟨?_, ?_, ?_⟩
  · intro h
    refine ⟨by simp [format_response_from_db, h], ?_⟩
    simp only [format_response_from_db, h, if_true, List.length_append,
      List.length_take]
    omega
  · intro h
    have h' : ¬ (format_response_body r).length > 4000 := by omega
    simp [format_response_from_db, h']
  · by_cases h : (format_response_body r).length > 4000
    · simp only [format_response_from_db, h, if_true, List.length_append,
        List.length_take]
      omega
    · simp only [format_response_from_db, h, if_false]
      omega

/-- Witness for C10 at a concrete result whose body has 4119 characters:
the output is the 4000-character truncation plus the fixed suffix. -/
theorem claim10_witness :
    format_response_from_db longAnswerResult
      = (format_response_body longAnswerResult).take 4000 ++ truncationSuffix
    ∧ (format_response_from_db longAnswerResult).length
      = 4000 + truncationSuffix.length :=
  (claim10_format_response_truncates longAnswerResult).1 (by
    simp only [format_response_body, longAnswerResult, List.length_append,
      List.length_replicate]
    decide)

/-- C3 counterexample: at the concrete session (second topic, question 0)
the `Назад` button handler `go_back` moves to the first topic at question
index 0, not at that topic's last valid index 1 as the claim states. -/
theorem claim3_counterexample :
    (go_back ⟨1, 0⟩).1
      ≠ Session.mk 0 ((demoKb.getD 0 default).content.length - 1) := by
  decide

/-- C3 amended: the repository has two previous-topic transitions.  The
`Назад` button handler `go_back` moves to the immediately preceding topic
with the question index set to 0; the back-words branch of `handle_text`,
taken at question index 0, moves to the immediately preceding topic with
the question index set to that topic's last valid index.  At the first
topic both leave the state unchanged and signal "already at start". -/
theorem claim3_prev_topic_transitions (kb : List Topic) (s : Session) :
    (0 < s.currentTopic →
      go_back s = (⟨s.currentTopic - 1, 0⟩, false))
    ∧ (s.currentTopic = 0 → go_back s = (s, true))
    ∧ (s.currentQuestionIndex = 0 → 0 < s.currentTopic →
      handle_text_back kb s
        = (⟨s.currentTopic - 1,
            ((kb.getD (s.currentTopic - 1) default).content).length - 1⟩,
           false))
    ∧ (s.currentTopic = 0 → s.currentQuestionIndex = 0 →
      handle_text_back kb s = (s, true)) := by
  refine ⟨?_, ?_, ?_, ?_⟩
  · intro h
    simp [go_back, h]
  · intro h
    simp [go_back, h]
  · intro hq ht
    simp [handle_text_back, hq, ht]
  · intro ht hq
    simp [handle_text_back, hq, ht]

/-- Witness for C3 at concrete sessions over the two-topic base: the text
path lands on the previous topic's last index, and the button handler
signals "already at start" at the first topic. -/
theorem claim3_witness :
    handle_text_back demoKb ⟨1, 0⟩ = (⟨0, 1⟩, false)
    ∧ go_back ⟨0, 0⟩ = (⟨0, 0⟩, true) := by
  constructor
  · rw [(claim3_prev_topic_transitions demoKb ⟨1, 0⟩).2.2.1 rfl (by decide)]
    decide
  · exact (claim3_prev_topic_transitions demoKb ⟨0, 0⟩).2.1 rfl

/-- `ask_ai` makes at most one API call. -/
theorem ask_ai_calls_le (o : OracleEnv) : (ask_ai o).2 ≤ 1 := by
  unfold ask_ai
  split <;> simp

/-- `send_ai_response` makes at most one API call. -/
theorem send_ai_calls_le (o : OracleEnv) : (send_ai_response o).2 ≤ 1 := by
  have h := ask_ai_calls_le o
  rcases ha : ask_ai o with ⟨res, c⟩
  rw [ha] at h
  simp only at h
  unfold send_ai_response
  rw [ha]
  split
  · simp
  · cases res with
    | some a =>
      by_cases he : a.isEmpty
      · simp [he, h]
      · simp [he, h]
    | none => simpa using h

/-- `check_relevance` makes at most one API call. -/
theorem check_relevance_calls_le (o : OracleEnv) : (check_relevance o).2 ≤ 1 := by
  unfold check_relevance
  split
  · simp
  · split <;> simp

/-- Per tiered decision, at most one relevance-verification call and at
most one generative call are made. -/
theorem process_calls_bound (o : OracleEnv) (results : List SearchResult) :
    (process_search_results o results).relCalls ≤ 1
    ∧ (process_search_results o results).fbCalls ≤ 1 := by
  have hs := send_ai_calls_le o
  have hc := check_relevance_calls_le o
  rcases hsa : send_ai_response o with ⟨sres, sc⟩
  rcases hcr : check_relevance o with ⟨cres, cc⟩
  rw [hsa] at hs
  rw [hcr] at hc
  simp only at hs hc
  cases results with
  | nil =>
    rw [process_search_results, hsa]
    cases sres <;> simp [hs]
  | cons r rest =>
    by_cases h8 : r.score ≥ high_relevance_score
    · simp [process_search_results, h8]
    · by_cases h5 : r.score ≥ min_relevance_score
      · rw [process_search_results]
        rw [if_neg h8, if_pos h5, hcr]
        dsimp only
        by_cases hrel : cres = some true
        · simp [hrel, hc]
        · rw [if_neg hrel, hsa]
          cases sres <;> simp [hs, hc]
      · rw [process_search_results]
        rw [if_neg h8, if_neg h5, hsa]
        cases sres <;> simp [hs]

/-- C2 counterexample: with a fully available Oracle whose verification
answers not-relevant, the concrete invocation on the ambiguous-score query
`"ab cd"` makes one verification call AND one generative-fallback call —
two Oracle calls, so "at most one Oracle call in total" is false. -/
theorem claim2_counterexample :
    ¬ ((retrieve oracleFull noSyn [midTopic] "ab cd".toList).relCalls
        + (retrieve oracleFull noSyn [midTopic] "ab cd".toList).fbCalls ≤ 1) := by
  decide

/-- C2 amended: a single pipeline invocation (search plus tiered decision)
makes at most one relevance-verification Oracle call and at most one
generative-fallback Oracle call — hence at most two Oracle calls in total
(and the verification capability itself is invoked at most once, the
fallback at most once; no retries). -/
theorem claim2_at_most_one_call_per_capability (o : OracleEnv)
    (syn : List Char → List (List Char)) (kb : List Topic) (query : List Char) :
    (retrieve o syn kb query).relCalls ≤ 1
    ∧ (retrieve o syn kb query).fbCalls ≤ 1
    ∧ (retrieve o syn kb query).relCalls + (retrieve o syn kb query).fbCalls ≤ 2 := by
  have h := process_calls_bound o (search_in_knowledge_base syn kb query)
  unfold retrieve
  exact ⟨h.1, h.2, by omega⟩

/-- C1 counterexample: with a fully available Oracle, the short query
`"a"` does NOT return `NotFound` and does invoke the Oracle — the
generative fallback is called once and its answer is shown. -/
theorem claim1_counterexample :
    (retrieve oracleFull noSyn [midTopic] "a".toList).decision
      ≠ Decision.notFound
    ∧ (retrieve oracleFull noSyn [midTopic] "a".toList).fbCalls = 1 := by
  decide

/-- C1 amended: for every raw query whose trimmed text is shorter than 2
characters (the empty query included), the search returns no results and
the pipeline makes no relevance-verification call; it then attempts the
generative fallback and returns `NotFound` exactly when that fallback is
disabled or unavailable, otherwise it shows the fallback answer. -/
theorem claim1_short_query_fallback (o : OracleEnv)
    (syn : List Char → List (List Char)) (kb : List Topic) (query : List Char)
    (h : (trimWs query).length < 2) :
    search_in_knowledge_base syn kb query = []
    ∧ (retrieve o syn kb query).relCalls = 0
    ∧ (∀ a, (send_ai_response o).1 = some a →
        (retrieve o syn kb query).decision = Decision.showAI a)
    ∧ ((send_ai_response o).1 = none →
        (retrieve o syn kb query).decision = Decision.notFound) := by
  have hguard : search_in_knowledge_base syn kb query = [] := by
    unfold search_in_knowledge_base
    rw [if_pos]
    simp [h]
  refine ⟨hguard, ?_, ?_, ?_⟩ <;>
    · rw [retrieve, hguard]
      rcases hsa : send_ai_response o with ⟨sres, sc⟩
      rw [process_search_results, hsa]
      cases sres <;> simp_all

/-- Witness for C1 at concrete inputs: with the Oracle disabled, the
queries `""` and `"a"` both yield `NotFound`. -/
theorem claim1_witness :
    (retrieve oracleOff noSyn [midTopic] "".toList).decision = Decision.notFound
    ∧ (retrieve oracleOff noSyn [midTopic] "a".toList).decision = Decision.notFound :=
  ⟨(claim1_short_query_fallback oracleOff noSyn [midTopic] "".toList
      (by decide)).2.2.2 (by decide),
   (claim1_short_query_fallback oracleOff noSyn [midTopic] "a".toList
      (by decide)).2.2.2 (by decide)⟩

/-- C4: whenever the kept result set is non-empty and its top-ranked
candidate scores at least `high_relevance_score` (equality included), the
pipeline returns `ShowCurated` with that candidate and makes no Oracle
call of either kind. -/
theorem claim4_high_score_short_circuits (o : OracleEnv)
    (syn : List Char → List (List Char)) (kb : List Topic) (query : List Char)
    (r : SearchResult) (rest : List SearchResult)
    (hsearch : search_in_knowledge_base syn kb query = r :: rest)
    (hscore : r.score ≥ high_relevance_score) :
    retrieve o syn kb query = ⟨Decision.showCurated r, 0, 0⟩ := by
  rw [retrieve, hsearch, process_search_results, if_pos hscore]

/-- Witness for C4: the query `"что такое тестирование по"` scores 50 on
`highTopic`, and the pipeline shows the curated entry with zero Oracle
calls even though the Oracle is fully available. -/
theorem claim4_witness :
    retrieve oracleFull noSyn [highTopic] "что такое тестирование по".toList
      = ⟨Decision.showCurated
          ⟨50, "Основы".toList, "Что такое тестирование ПО?".toList,
           "Это проверка.".toList, []⟩, 0, 0⟩ :=
  claim4_high_score_short_circuits oracleFull noSyn [highTopic]
    "что такое тестирование по".toList
    ⟨50, "Основы".toList, "Что такое тестирование ПО?".toList,
     "Это проверка.".toList, []⟩ [] (by decide) (by decide)

/-- C5: for a non-empty kept result set whose top candidate scores in
`[min_relevance_score, high_relevance_score)`, when the verification is
unavailable (`None`) or answers not-relevant (`False`) the pipeline
attempts the generative fallback: a successful fallback answer is shown,
and an unavailable fallback degrades to `ShowCurated` with the top
candidate.  No Oracle failure is fatal: every such invocation terminates
in one of these `Decision` values (the embedding is a total function). -/
theorem claim5_not_relevant_degrades_gracefully (o : OracleEnv)
    (syn : List Char → List (List Char)) (kb : List Topic) (query : List Char)
    (r : SearchResult) (rest : List SearchResult)
    (hsearch : search_in_knowledge_base syn kb query = r :: rest)
    (hmin : r.score ≥ min_relevance_score)
    (hhigh : ¬ r.score ≥ high_relevance_score)
    (hrel : (check_relevance o).1 = none ∨ (check_relevance o).1 = some false) :
    ((send_ai_response o).1 = none →
      (retrieve o syn kb query).decision = Decision.showCurated r)
    ∧ (∀ a, (send_ai_response o).1 = some a →
      (retrieve o syn kb query).decision = Decision.showAI a) := by
  rcases hcr : check_relevance o with ⟨cres, cc⟩
  rw [hcr] at hrel
  dsimp only at hrel
  have hnottrue : ¬ cres = some true := by
    rcases hrel with h | h <;> simp [h]
  constructor
  · intro hnone
    rcases hsa : send_ai_response o with ⟨sres, sc⟩
    rw [hsa] at hnone
    dsimp only at hnone
    subst hnone
    rw [retrieve, hsearch, process_search_results, if_neg hhigh, if_pos hmin,
      hcr]
    dsimp only
    rw [if_neg hnottrue, hsa]
  · intro a ha
    rcases hsa : send_ai_response o with ⟨sres, sc⟩
    rw [hsa] at ha
    dsimp only at ha
    subst ha
    rw [retrieve, hsearch, process_search_results, if_neg hhigh, if_pos hmin,
      hcr]
    dsimp only
    rw [if_neg hnottrue, hsa]

/-- Witness for C5: with the Oracle disabled (verification `None`,
fallback unavailable), the ambiguous-score query `"ab cd"` degrades to
`ShowCurated` with the top candidate. -/
theorem claim5_witness :
    (retrieve oracleOff noSyn [midTopic] "ab cd".toList).decision
      = Decision.showCurated ⟨5, "cd".toList, "q".toList, "ab".toList, []⟩ :=
  (claim5_not_relevant_degrades_gracefully oracleOff noSyn [midTopic]
    "ab cd".toList ⟨5, "cd".toList, "q".toList, "ab".toList, []⟩ []
    (by decide) (by decide) (by decide) (Or.inl (by decide))).1 (by decide)

/-- C6: the phrase bonuses of `calculate_relevance_score` are tiered and
mutually exclusive with the highest tier winning.  Against the question
text: a full-phrase match contributes exactly 20; otherwise a first-3
prefix match contributes exactly 15; otherwise a first-2 prefix match
contributes exactly 12; otherwise 0.  Independently, against the answer
text the same tiering contributes exactly 10 / 7 / 5 / 0 (each equation
leaves every other additive component of the score untouched).  And the
query `"что такое тестирование по"` against an entry whose question is
`"Что такое тестирование ПО?"` scores at least 20, whatever its answer,
keywords, topic name and synonym table. -/
theorem claim6_phrase_tiers_mutually_exclusive :
    (∀ (syn : List Char → List (List Char)) (qws : List (List Char))
        (qd : Entry) (tn : List Char),
      isSubstring (query_phrase qws) (normalize_text qd.question) = true →
      calculate_relevance_score syn qws qd tn
        = 20 + phrase_bonus qws (normalize_text qd.answer) 10 7 5
          + token_match_score syn qws qd tn
          + completeness_bonus qws (normalize_text qd.question))
    ∧ (∀ syn qws qd tn,
      isSubstring (query_phrase qws) (normalize_text qd.question) = false →
      (!(query_phrase_3 qws).isEmpty
        && isSubstring (query_phrase_3 qws) (normalize_text qd.question)) = true →
      calculate_relevance_score syn qws qd tn
        = 15 + phrase_bonus qws (normalize_text qd.answer) 10 7 5
          + token_match_score syn qws qd tn
          + completeness_bonus qws (normalize_text qd.question))
    ∧ (∀ syn qws qd tn,
      isSubstring (query_phrase qws) (normalize_text qd.question) = false →
      (!(query_phrase_3 qws).isEmpty
        && isSubstring (query_phrase_3 qws) (normalize_text qd.question)) = false →
      (!(query_phrase_2 qws).isEmpty
        && isSubstring (query_phrase_2 qws) (normalize_text qd.question)) = true →
      calculate_relevance_score syn qws qd tn
        = 12 + phrase_bonus qws (normalize_text qd.answer) 10 7 5
          + token_match_score syn qws qd tn
          + completeness_bonus qws (normalize_text qd.question))
    ∧ (∀ syn qws qd tn,
      isSubstring (query_phrase qws) (normalize_text qd.question) = false →
      (!(query_phrase_3 qws).isEmpty
        && isSubstring (query_phrase_3 qws) (normalize_text qd.question)) = false →
      (!(query_phrase_2 qws).isEmpty
        && isSubstring (query_phrase_2 qws) (normalize_text qd.question)) = false →
      calculate_relevance_score syn qws qd tn
        = phrase_bonus qws (normalize_text qd.answer) 10 7 5
          + token_match_score syn qws qd tn
          + completeness_bonus qws (normalize_text qd.question))
    ∧ (∀ syn qws qd tn,
      isSubstring (query_phrase qws) (normalize_text qd.answer) = true →
      calculate_relevance_score syn qws qd tn
        = phrase_bonus qws (normalize_text qd.question) 20 15 12 + 10
          + token_match_score syn qws qd tn
          + completeness_bonus qws (normalize_text qd.question))
    ∧ (∀ syn qws qd tn,
      isSubstring (query_phrase qws) (normalize_text qd.answer) = false →
      (!(query_phrase_3 qws).isEmpty
        && isSubstring (query_phrase_3 qws) (normalize_text qd.answer)) = true →
      calculate_relevance_score syn qws qd tn
        = phrase_bonus qws (normalize_text qd.question) 20 15 12 + 7
          + token_match_score syn qws qd tn
          + completeness_bonus qws (normalize_text qd.question))
    ∧ (∀ syn qws qd tn,
      isSubstring (query_phrase qws) (normalize_text qd.answer) = false →
      (!(query_phrase_3 qws).isEmpty
        && isSubstring (query_phrase_3 qws) (normalize_text qd.answer)) = false →
      (!(query_phrase_2 qws).isEmpty
        && isSubstring (query_phrase_2 qws) (normalize_text qd.answer)) = true →
      calculate_relevance_score syn qws qd tn
        = phrase_bonus qws (normalize_text qd.question) 20 15 12 + 5
          + token_match_score syn qws qd tn
          + completeness_bonus qws (normalize_text qd.question))
    ∧ (∀ syn qws qd tn,
      isSubstring (query_phrase qws) (normalize_text qd.answer) = false →
      (!(query_phrase_3 qws).isEmpty
        && isSubstring (query_phrase_3 qws) (normalize_text qd.answer)) = false →
      (!(query_phrase_2 qws).isEmpty
        && isSubstring (query_phrase_2 qws) (normalize_text qd.answer)) = false →
      calculate_relevance_score syn qws qd tn
        = phrase_bonus qws (normalize_text qd.question) 20 15 12
          + token_match_score syn qws qd tn
          + completeness_bonus qws (normalize_text qd.question))
    ∧ (∀ syn (answer : List Char) (kws : List (List Char)) (tn : List Char),
      calculate_relevance_score syn exampleQueryWords
          ⟨exampleQuestion, answer, kws⟩ tn ≥ 20) := by
  have t20 : ∀ (syn : List Char → List (List Char)) (qws : List (List Char))
      (qd : Entry) (tn : List Char),
      isSubstring (query_phrase qws) (normalize_text qd.question) = true →
      calculate_relevance_score syn qws qd tn
        = 20 + phrase_bonus qws (normalize_text qd.answer) 10 7 5
          + token_match_score syn qws qd tn
          + completeness_bonus qws (normalize_text qd.question) := by
    intro syn qws qd tn h
    have hq : phrase_bonus qws (normalize_text qd.question) 20 15 12 = 20 := by
      simp [phrase_bonus, h]
    rw [calculate_relevance_score, hq]
  refine ⟨t20, ?_, ?_, ?_, ?_, ?_, ?_, ?_, ?_⟩
  · intro syn qws qd tn h h3
    have hq : phrase_bonus qws (normalize_text qd.question) 20 15 12 = 15 := by
      simp only [phrase_bonus, h, Bool.false_eq_true, if_false, h3, if_true]
    rw [calculate_relevance_score, hq]
  · intro syn qws qd tn h h3 h2
    have hq : phrase_bonus qws (normalize_text qd.question) 20 15 12 = 12 := by
      simp only [phrase_bonus, h, Bool.false_eq_true, if_false, h3, h2, if_true]
    rw [calculate_relevance_score, hq]
  · intro syn qws qd tn h h3 h2
    have hq : phrase_bonus qws (normalize_text qd.question) 20 15 12 = 0 := by
      simp only [phrase_bonus, h, Bool.false_eq_true, if_false, h3, h2]
    rw [calculate_relevance_score, hq]
    omega
  · intro syn qws qd tn h
    have ha : phrase_bonus qws (normalize_text qd.answer) 10 7 5 = 10 := by
      simp [phrase_bonus, h]
    rw [calculate_relevance_score, ha]
  · intro syn qws qd tn h h3
    have ha : phrase_bonus qws (normalize_text qd.answer) 10 7 5 = 7 := by
      simp only [phrase_bonus, h, Bool.false_eq_true, if_false, h3, if_true]
    rw [calculate_relevance_score, ha]
  · intro syn qws qd tn h h3 h2
    have ha : phrase_bonus qws (normalize_text qd.answer) 10 7 5 = 5 := by
      simp only [phrase_bonus, h, Bool.false_eq_true, if_false, h3, h2, if_true]
    rw [calculate_relevance_score, ha]
  · intro syn qws qd tn h h3 h2
    have ha : phrase_bonus qws (normalize_text qd.answer) 10 7 5 = 0 := by
      simp only [phrase_bonus, h, Bool.false_eq_true, if_false, h3, h2]
    rw [calculate_relevance_score, ha]
    omega
  · intro syn answer kws tn
    have h : isSubstring (query_phrase exampleQueryWords)
        (normalize_text exampleQuestion) = true := by
      decide
    rw [t20 syn exampleQueryWords ⟨exampleQuestion, answer, kws⟩ tn h]
    omega

/-- Witness for C6 at a concrete input: the example query matches the
example question as a full phrase, so the score decomposes as 20 plus the
remaining components. -/
theorem claim6_witness :
    calculate_relevance_score noSyn exampleQueryWords
        ⟨exampleQuestion, "Это проверка.".toList, []⟩ "Основы".toList
      = 20 + phrase_bonus exampleQueryWords
            (normalize_text "Это проверка.".toList) 10 7 5
        + token_match_score noSyn exampleQueryWords
            ⟨exampleQuestion, "Это проверка.".toList, []⟩ "Основы".toList
        + completeness_bonus exampleQueryWords (normalize_text exampleQuestion) :=
  claim6_phrase_tiers_mutually_exclusive.1 noSyn exampleQueryWords
    ⟨exampleQuestion, "Это проверка.".toList, []⟩ "Основы".toList (by decide)

/-- Each per-token contribution of `token_match_score` never decreases
when a keyword is appended to the entry's keyword list. -/
theorem token_match_score_keyword_append_le
    (syn : List Char → List (List Char)) (qws : List (List Char))
    (qd : Entry) (kw tn : List Char) :
    token_match_score syn qws qd tn
      ≤ token_match_score syn qws
          ⟨qd.question, qd.answer, qd.keywords ++ [kw]⟩ tn := by
  unfold token_match_score
  dsimp only
  apply List.sum_le_sum
  intro w hw
  by_cases h : (qd.keywords.map normalize_text).contains w
  · have h' : ((qd.keywords ++ [kw]).map normalize_text).contains w = true := by
      have hmem : w ∈ qd.keywords.map normalize_text := by
        simpa using h
      have : w ∈ (qd.keywords ++ [kw]).map normalize_text := by
        rw [List.map_append]
        exact List.mem_append_left _ hmem
      simpa using this
    rw [h, h']
  · rw [if_neg h]
    by_cases h' : ((qd.keywords ++ [kw]).map normalize_text).contains w
    · rw [if_pos h']
      omega
    · rw [if_neg h']

/-- C8: for every entry, query and token occurring in the query, appending
a keyword whose normalized form equals that token never decreases the
entry's relevance score for that query (the question-, answer- and
topic-derived components are unchanged and the keyword component is
monotone in the keyword set). -/
theorem claim8_keyword_addition_monotone
    (syn : List Char → List (List Char)) (queryWords : List (List Char))
    (qd : Entry) (topicName kw token : List Char)
    (htok : token ∈ queryWords) (hnorm : normalize_text kw = token) :
    calculate_relevance_score syn queryWords qd topicName
      ≤ calculate_relevance_score syn queryWords
          ⟨qd.question, qd.answer, qd.keywords ++ [kw]⟩ topicName := by
  have hmono := token_match_score_keyword_append_le syn queryWords qd kw topicName
  unfold calculate_relevance_score
  dsimp only
  omega

/-- Witness for C8 at a concrete input: adding the keyword `"AB!"`
(normalizing to the query token `"ab"`) does not decrease the score. -/
theorem claim8_witness :
    calculate_relevance_score noSyn ["ab".toList]
        ⟨"q".toList, "x".toList, []⟩ "t".toList
      ≤ calculate_relevance_score noSyn ["ab".toList]
          ⟨"q".toList, "x".toList, ["AB!".toList]⟩ "t".toList :=
  claim8_keyword_addition_monotone noSyn ["ab".toList]
    ⟨"q".toList, "x".toList, []⟩ "t".toList "AB!".toList "ab".toList
    (by decide) (by decide)

/-- A list with no adjacent double space keeps the property after
dropping its head. -/
theorem noAdj_tail (c : Char) (l : List Char)
    (h : noAdjSpaces (c :: l) = true) : noAdjSpaces l = true := by
  cases l with
  | nil => rfl
  | cons d t =>
    simp only [noAdjSpaces, Bool.and_eq_true] at h
    exact h.2

/-- `squeezeSpaces` keeps the head of a non-empty list. -/
theorem squeezeSpaces_cons (d : Char) (rest : List Char) :
    ∃ t, squeezeSpaces (d :: rest) = d :: t := by
  induction rest generalizing d with
  | nil => exact ⟨[], rfl⟩
  | cons e r ih =>
    by_cases h : d == ' ' && e == ' '
    · have hd : d = ' ' := by
        have := (Bool.and_eq_true _ _).mp h |>.1
        exact eq_of_beq this
      have he : e = ' ' := by
        have := (Bool.and_eq_true _ _).mp h |>.2
        exact eq_of_beq this
      obtain ⟨t, ht⟩ := ih e
      refine ⟨t, ?_⟩
      simp only [squeezeSpaces]
      rw [if_pos h, ht, hd, he]
    · refine ⟨squeezeSpaces (e :: r), ?_⟩
      simp only [squeezeSpaces]
      rw [if_neg h]

/-- The output of `squeezeSpaces` never has two adjacent spaces. -/
theorem noAdj_squeezeSpaces (l : List Char) :
    noAdjSpaces (squeezeSpaces l) = true := by
  induction l with
  | nil => rfl
  | cons c rest ih =>
    cases rest with
    | nil => rfl
    | cons d r =>
      by_cases h : c == ' ' && d == ' '
      · simp only [squeezeSpaces]
        rw [if_pos h]
        exact ih
      · simp only [squeezeSpaces]
        rw [if_neg h]
        obtain ⟨t, ht⟩ := squeezeSpaces_cons d r
        rw [ht]
        simp only [noAdjSpaces, Bool.and_eq_true]
        refine ⟨?_, ?_⟩
        · cases hb : (c == ' ' && d == ' ') with
          | false => rfl
          | true => exact absurd hb h
        · rw [← ht]
          exact ih

/-- Every character of `squeezeSpaces l` comes from `l`. -/
theorem mem_of_mem_squeezeSpaces {c : Char} :
    ∀ {l : List Char}, c ∈ squeezeSpaces l → c ∈ l := by
  intro l
  induction l with
  | nil => simp [squeezeSpaces]
  | cons a rest ih =>
    cases rest with
    | nil => simp [squeezeSpaces]
    | cons d r =>
      by_cases h : a == ' ' && d == ' '
      · intro hm
        simp only [squeezeSpaces] at hm
        rw [if_pos h] at hm
        exact List.mem_cons_of_mem a (ih hm)
      · intro hm
        simp only [squeezeSpaces] at hm
        rw [if_neg h] at hm
        rcases List.mem_cons.mp hm with rfl | hm'
        · exact List.mem_cons_self _ _
        · exact List.mem_cons_of_mem a (ih hm')

/-- Every character of `l.dropWhile isWs` comes from `l`. -/
theorem mem_of_mem_dropWhileWs {c : Char} :
    ∀ {l : List Char}, c ∈ l.dropWhile isWs → c ∈ l := by
  intro l
  induction l with
  | nil => simp
  | cons a rest ih =>
    rw [List.dropWhile_cons]
    by_cases h : isWs a
    · rw [if_pos h]
      intro hm
      exact List.mem_cons_of_mem a (ih hm)
    · rw [if_neg h]
      exact id

/-- Every character of `trimRight l` comes from `l`. -/
theorem mem_of_mem_trimRight {c : Char} :
    ∀ {l : List Char}, c ∈ trimRight l → c ∈ l := by
  intro l
  induction l with
  | nil => simp [trimRight]
  | cons a rest ih =>
    simp only [trimRight]
    by_cases h : (trimRight rest).isEmpty && isWs a
    · rw [if_pos h]
      simp
    · rw [if_neg h]
      intro hm
      rcases List.mem_cons.mp hm with rfl | hm'
      · exact List.mem_cons_self _ _
      · exact List.mem_cons_of_mem a (ih hm')

/-- `trimRight` keeps the head of its input when the output is
non-empty. -/
theorem trimRight_head {c : Char} :
    ∀ {l : List Char}, (trimRight l).head? = some c → l.head? = some c := by
  intro l
  cases l with
  | nil => simp [trimRight]
  | cons a rest =>
    simp only [trimRight]
    by_cases h : (trimRight rest).isEmpty && isWs a
    · rw [if_pos h]
      simp
    · rw [if_neg h]
      simp only [List.head?_cons]
      exact id

/-- The head of `l.dropWhile isWs` is never whitespace. -/
theorem dropWhileWs_head_not_ws {c : Char} :
    ∀ {l : List Char}, (l.dropWhile isWs).head? = some c → isWs c = false := by
  intro l
  induction l with
  | nil => simp
  | cons a rest ih =>
    rw [List.dropWhile_cons]
    by_cases h : isWs a
    · rw [if_pos h]
      exact ih
    · rw [if_neg h]
      intro hm
      simp only [List.head?_cons, Option.some_inj] at hm
      rw [← hm]
      exact Bool.not_eq_true _ ▸ by simpa using h

/-- The last character of `trimRight l` is never whitespace. -/
theorem trimRight_getLast_not_ws {c : Char} :
    ∀ {l : List Char}, (trimRight l).getLast? = some c → isWs c = false := by
  intro l
  induction l with
  | nil => simp [trimRight]
  | cons a rest ih =>
    simp only [trimRight]
    by_cases h : (trimRight rest).isEmpty && isWs a
    · rw [if_pos h]
      simp
    · rw [if_neg h]
      cases htr : trimRight rest with
      | nil =>
        intro hm
        simp only [List.getLast?_singleton, Option.some_inj] at hm
        have h' : trimRight rest = [] → isWs a = false := by simpa using h
        rw [← hm]
        exact h' htr
      | cons b t =>
        intro hm
        apply ih
        rw [htr]
        rwa [List.getLast?_cons_cons] at hm

/-- Dropping leading whitespace preserves space-run-freedom. -/
theorem noAdj_dropWhileWs :
    ∀ {l : List Char}, noAdjSpaces l = true →
      noAdjSpaces (l.dropWhile isWs) = true := by
  intro l
  induction l with
  | nil => simp
  | cons a rest ih =>
    intro h
    rw [List.dropWhile_cons]
    by_cases ha : isWs a
    · rw [if_pos ha]
      exact ih (noAdj_tail _ _ h)
    · rw [if_neg ha]
      exact h

/-- Trimming trailing whitespace preserves space-run-freedom. -/
theorem noAdj_trimRight :
    ∀ {l : List Char}, noAdjSpaces l = true →
      noAdjSpaces (trimRight l) = true := by
  intro l
  induction l with
  | nil => exact id
  | cons a rest ih =>
    intro h
    simp only [trimRight]
    by_cases hc : (trimRight rest).isEmpty && isWs a
    · rw [if_pos hc]
      rfl
    · rw [if_neg hc]
      cases htr : trimRight rest with
      | nil => rfl
      | cons b t =>
        have hh : rest.head? = some b := trimRight_head (by rw [htr]; rfl)
        cases rest with
        | nil => simp at hh
        | cons b' rest' =>
          have hb : b' = b := by simpa using hh
          subst hb
          simp only [noAdjSpaces, Bool.and_eq_true] at h
          simp only [noAdjSpaces, Bool.and_eq_true]
          refine ⟨h.1, ?_⟩
          rw [← htr]
          exact ih h.2

/-- Each character surviving the two per-character substitutions of
`normalize_text` is a word character or a plain space. -/
theorem wsToSpace_punctToSpace_wordOrSpace (z : Char) :
    isWordChar (wsToSpace (punctToSpace z)) = true
    ∨ wsToSpace (punctToSpace z) = ' ' := by
  have hsp : isWs ' ' = true := by decide
  unfold punctToSpace wsToSpace
  by_cases h1 : isWordChar z
  · by_cases h2 : isWs z
    · simp [h1, h2]
    · simp [h1, h2]
  · by_cases h2 : isWs z
    · simp [h1, h2]
    · simp [h1, h2, hsp]

/-- Every character of a normalized text is a word character or a space. -/
theorem normalize_text_chars (t : List Char) (c : Char)
    (hc : c ∈ normalize_text t) : isWordChar c = true ∨ c = ' ' := by
  unfold normalize_text trimWs at hc
  have h2 := mem_of_mem_squeezeSpaces
    (mem_of_mem_dropWhileWs (mem_of_mem_trimRight hc))
  simp only [List.mem_map] at h2
  obtain ⟨y, ⟨z, ⟨x, _, rfl⟩, rfl⟩, rfl⟩ := h2
  exact wsToSpace_punctToSpace_wordOrSpace (lowerChar x)

/-- Normalized text never contains two adjacent spaces. -/
theorem normalize_text_noAdj (t : List Char) :
    noAdjSpaces (normalize_text t) = true := by
  unfold normalize_text trimWs
  exact noAdj_trimRight (noAdj_dropWhileWs (noAdj_squeezeSpaces _))

/-- Normalized text never starts with a space. -/
theorem normalize_text_head_not_space (t : List Char) :
    (normalize_text t).head? ≠ some ' ' := by
  intro h
  unfold normalize_text trimWs at h
  have h2 := dropWhileWs_head_not_ws (trimRight_head h)
  simp [isWs] at h2

/-- Normalized text never ends with a space. -/
theorem normalize_text_getLast_not_space (t : List Char) :
    (normalize_text t).getLast? ≠ some ' ' := by
  intro h
  unfold normalize_text trimWs at h
  have h2 := trimRight_getLast_not_ws h
  simp [isWs] at h2

/-- C7 counterexample: the claim says every character that is not a
letter, digit, or whitespace is replaced with a space, but `normalize_text`
keeps the underscore (Python `\w` includes `_`): on the input `"_"` the
code returns `"_"` while the claim's wording demands `""`
(`normalize_text_spec` is the claim's wording, modelled from the spec). -/
theorem claim7_counterexample :
    normalize_text "_".toList = "_".toList
    ∧ normalize_text_spec "_".toList = []
    ∧ normalize_text "_".toList ≠ normalize_text_spec "_".toList := by
  decide

/-- C7 amended: `normalize_text` lowercases, replaces every character
that is not a word character (letter, digit, or underscore) or whitespace
with a single space, collapses runs of whitespace to one space, and trims
leading and trailing whitespace; it is deterministic and total (a total
Lean function), empty input yields empty output, and Unicode (non-Latin)
letters are kept as letters rather than stripped.  Stated extensionally:
empty-to-empty; every output character is a word character or a space; no
two adjacent output characters are spaces; the output neither starts nor
ends with a space; and a concrete Cyrillic input shows lowercasing,
punctuation removal, whitespace collapsing, trimming and the kept
underscore. -/
theorem claim7_normalize_properties :
    normalize_text [] = []
    ∧ (∀ t c, c ∈ normalize_text t → isWordChar c = true ∨ c = ' ')
    ∧ (∀ t, noAdjSpaces (normalize_text t) = true)
    ∧ (∀ t, (normalize_text t).head? ≠ some ' ')
    ∧ (∀ t, (normalize_text t).getLast? ≠ some ' ')
    ∧ normalize_text "  Привет,   QA_мир!! 42  ".toList
        = "привет qa_мир 42".toList :=
  ⟨rfl, normalize_text_chars, normalize_text_noAdj,
   normalize_text_head_not_space, normalize_text_getLast_not_space,
   by decide⟩

/-- Witness for C7 at a concrete input: the character `'q'` survives
normalization of `"q!"`, and it is a word character. -/
theorem claim7_witness :
    isWordChar 'q' = true ∨ 'q' = ' ' :=
  claim7_normalize_properties.2.1 "q!".toList 'q' (by decide)
